import Mathlib

set_option autoImplicit false

/-!
Verification of the waifu-mirror ingestion pipeline.

This file embeds the ingestion core of the repository
(`internal/ingest/ingest.go`, `internal/optimize`, `internal/catalog`)
as executable Lean definitions and proves properties of them.
Network, randomness, the image codecs, the filesystem and the SQLite
store are modelled as explicit oracles / state so that the control flow
of the Go code can be translated line by line.
-/

namespace WaifuMirror

/-- Image payloads and HTTP bodies are byte lists (byte values as `Nat`). -/
abbrev Bytes := List Nat

/-- An HTTP response body as a reader: the bytes it will deliver, followed
either by a clean EOF (`terminal = none`) or by a transport error that the
reader reports after the data (`terminal = some msg`). -/
structure BodyStream where
  data : Bytes
  terminal : Option String
  deriving Repr, DecidableEq

/-- Model of Go `io.LimitReader(s, n)`: it delivers at most `n` bytes and
reports EOF once `n` bytes have been read, without consulting the
underlying reader again; hence an underlying error is surfaced only when
the underlying data runs out strictly before the limit. -/
def limitReader (s : BodyStream) (n : Nat) : BodyStream :=
  { data := s.data.take n
    terminal := if s.data.length < n then s.terminal else none }

/-- Model of Go `io.ReadAll`: accumulate bytes until EOF or error, returning
the bytes read together with the error, if any (`none` at clean EOF). -/
def readAll (s : BodyStream) : Bytes × Option String :=
  (s.data, s.terminal)

/-- The body read performed at ingest.go:317 (`cap = 1<<20`) and
ingest.go:268 (`cap = 10<<20`): `io.ReadAll(io.LimitReader(body, cap))`. -/
def readCapped (body : BodyStream) (cap : Nat) : Bytes × Option String :=
  readAll (limitReader body cap)

/-- Errors produced by the embedded ingestion code, mirroring the
`fmt.Errorf` constructions in the Go source. -/
inductive Err where
  /-- transport-level failure of `hc.Do` -/
  | transport (msg : String)
  /-- `fmt.Errorf("%s returned %d", source, code)` in fetchWithRetry -/
  | apiStatus (source : String) (code : Nat)
  /-- `fmt.Errorf("download %d", code)` in downloadImage -/
  | dlStatus (code : Nat)
  /-- error returned by the body read -/
  | bodyRead (msg : String)
  /-- `fmt.Errorf("after %d retries: %w", maxRetries, lastErr)` -/
  | retriesExhausted (n : Nat) (last : Option Err)
  /-- `fmt.Errorf("write image: %w", err)` -/
  | writeFile (filename : String)
  /-- failure of `catalog.DB.Insert` (database error) -/
  | insertFail (hash : String)
  /-- `fmt.Errorf("optimize: decode: %w", err)` -/
  | decodeFail
  /-- `fmt.Errorf("optimize: encode webp: %w", err)` -/
  | encodeFail
  /-- JSON unmarshal failure of an adapter response -/
  | parseFail

/-- The outcome the network produces for one HTTP attempt: either the
transport fails (`hc.Do` returns an error) or a response arrives with a
status code and a body stream. -/
inductive AttemptResult where
  | transportErr (msg : String)
  | response (status : Nat) (body : BodyStream)

/-- Observable events of the ingestion code, used to state temporal
properties: backoff sleeps (with duration in nanoseconds), rate-limiter
token acquisitions (`limiter.Wait`), outgoing HTTP requests (`hc.Do`),
and adapter invocations from `Ingester.Run`. -/
inductive Ev where
  | sleep (ns : Nat)
  | tokenWait
  | request
  | adapterCall (source : String) (category : String)
  deriving Repr, DecidableEq, BEq

def requestCount (tr : List Ev) : Nat :=
  tr.countP (fun ev => match ev with | Ev.request => true | _ => false)

def tokenWaitCount (tr : List Ev) : Nat :=
  tr.countP (fun ev => match ev with | Ev.tokenWait => true | _ => false)

def sleepDurations (tr : List Ev) : List Nat :=
  tr.filterMap (fun ev => match ev with | Ev.sleep ns => some ns | _ => none)

/-- `const maxRetries = 3` (ingest.go:45). -/
def maxRetries : Nat := 3

/-- Nanoseconds in `time.Second`. -/
def nsPerSec : Nat := 1000000000

/-- `backoffDuration` (ingest.go:338-342):
`base := time.Duration(1<<uint(attempt)) * time.Second` and
`jitter := time.Duration(rand.Int63n(int64(base/2)))`.
The random source is the oracle `r`; `rand.Int63n n` is `r n`, which a
caller constrains by `r n < n`. All durations are in nanoseconds. -/
def backoffDuration (r : Nat → Nat) (attempt : Nat) : Nat :=
  let base := 2 ^ attempt * nsPerSec
  let jitter := r (base / 2)
  base + jitter

/-- Loop body of `fetchWithRetry` (ingest.go:281-335), by remaining fuel:
`fuel = maxRetries - attempt`. Each iteration: when `attempt > 0`, sleep
the backoff and re-acquire a rate-limit token; issue the request; read the
body capped at `1<<20`; retry on 429/5xx, on transport error and on body
read error; any other non-200 status is terminal; 200 returns the body. -/
def fetchAux (r : Nat → Nat) (out : Nat → AttemptResult) (source : String) :
    Nat → Nat → Option Err → Except Err Bytes × List Ev
  | 0, _, lastErr => (Except.error (Err.retriesExhausted maxRetries lastErr), [])
  | fuel + 1, attempt, _ =>
      let pre : List Ev :=
        if attempt = 0 then [] else [Ev.sleep (backoffDuration r attempt), Ev.tokenWait]
      match out attempt with
      | AttemptResult.transportErr msg =>
          let rest := fetchAux r out source fuel (attempt + 1) (some (Err.transport msg))
          (rest.1, pre ++ Ev.request :: rest.2)
      | AttemptResult.response status body =>
          let rd := readCapped body (1 <<< 20)
          if status = 429 ∨ 500 ≤ status then
            let rest := fetchAux r out source fuel (attempt + 1) (some (Err.apiStatus source status))
            (rest.1, pre ++ Ev.request :: rest.2)
          else if status ≠ 200 then
            (Except.error (Err.apiStatus source status), pre ++ [Ev.request])
          else
            match rd.2 with
            | some msg =>
                let rest := fetchAux r out source fuel (attempt + 1) (some (Err.bodyRead msg))
                (rest.1, pre ++ Ev.request :: rest.2)
            | none => (Except.ok rd.1, pre ++ [Ev.request])

/-- `fetchWithRetry` (ingest.go:281-335): run the attempt loop from
`attempt = 0` with `lastErr = nil`, returning the result and the event
trace. `out k` is the network outcome of the `k`-th attempt. -/
def fetchWithRetry (r : Nat → Nat) (out : Nat → AttemptResult) (source : String) :
    Except Err Bytes × List Ev :=
  fetchAux r out source maxRetries 0 none

/-- Loop body of `downloadImage` (ingest.go:235-277), by remaining fuel.
Unlike `fetchWithRetry`, a retry iteration only sleeps the backoff — there
is no `limiter.Wait` inside this loop — the status is checked before the
body is read, the cap is `10<<20`, and errors use the `download %d` form. -/
def downloadAux (r : Nat → Nat) (out : Nat → AttemptResult) :
    Nat → Nat → Option Err → Except Err Bytes × List Ev
  | 0, _, lastErr => (Except.error (Err.retriesExhausted maxRetries lastErr), [])
  | fuel + 1, attempt, _ =>
      let pre : List Ev :=
        if attempt = 0 then [] else [Ev.sleep (backoffDuration r attempt)]
      match out attempt with
      | AttemptResult.transportErr msg =>
          let rest := downloadAux r out fuel (attempt + 1) (some (Err.transport msg))
          (rest.1, pre ++ Ev.request :: rest.2)
      | AttemptResult.response status body =>
          if status = 429 ∨ 500 ≤ status then
            let rest := downloadAux r out fuel (attempt + 1) (some (Err.dlStatus status))
            (rest.1, pre ++ Ev.request :: rest.2)
          else if status ≠ 200 then
            (Except.error (Err.dlStatus status), pre ++ [Ev.request])
          else
            let rd := readCapped body (10 <<< 20)
            match rd.2 with
            | some msg =>
                let rest := downloadAux r out fuel (attempt + 1) (some (Err.bodyRead msg))
                (rest.1, pre ++ Ev.request :: rest.2)
            | none => (Except.ok rd.1, pre ++ [Ev.request])

/-- `downloadImage` (ingest.go:235-277). -/
def downloadImage (r : Nat → Nat) (out : Nat → AttemptResult) :
    Except Err Bytes × List Ev :=
  downloadAux r out maxRetries 0 none

/-! ### The optimize package (`internal/optimize`, `ForTerminal`) -/

/-- Dimension computation of `optimize.ForTerminal` (optimize.go lines
32-38). The Go code computes `ratio := float64(maxWidth)/float64(origW)`
and `newH = int(float64(origH) * ratio)`: a float64 multiply followed by
conversion to `int`, which truncates toward zero. For nonnegative inputs
this is the floor of the exact ratio, i.e. Nat division
`origH * maxWidth / origW`. -/
def resizeDims (origW origH maxWidth : Nat) : Nat × Nat :=
  if maxWidth < origW then (maxWidth, origH * maxWidth / origW)
  else (origW, origH)

/-- `optimize.ForTerminal` with decoding and WebP encoding abstracted:
`decode` is `some (origW, origH)` when `decodeImage` succeeds on the input
bytes with those bounds, `none` when every decoder fails; `encodeOk`
says whether `webp.Encode` succeeds. Returns the reported final
dimensions. -/
def ForTerminal (decode : Option (Nat × Nat)) (encodeOk : Bool) (maxWidth : Nat) :
    Except Err (Nat × Nat) :=
  match decode with
  | none => Except.error Err.decodeFail
  | some (origW, origH) =>
      let d := resizeDims origW origH maxWidth
      if encodeOk then Except.ok d else Except.error Err.encodeFail

/-- Modelled from the spec: the height the spec's resize law prescribes,
`round(originalHeight × bound / originalWidth)` with ordinary half-up
rounding of the exact ratio: `round(a/b) = (2a + b) / (2b)`. -/
def specRoundHeight (origW origH maxWidth : Nat) : Nat :=
  (2 * (origH * maxWidth) + origW) / (2 * origW)

/-! ### The catalog (`internal/catalog`) and the image directory -/

/-- `catalog.Image` (the persisted metadata row), without the
store-assigned `ID`/`CreatedAt` fields, which the ingest code never sets. -/
structure Image where
  hash : String
  source : String
  sourceURL : String
  category : String
  width : Nat
  height : Nat
  format : String
  sizeBytes : Nat
  filename : String
  deriving Repr, DecidableEq

/-- The catalog database: the list of rows of the `images` table, in
insertion order. The schema declares `hash TEXT UNIQUE`. -/
structure Store where
  rows : List Image
  deriving Repr, DecidableEq

/-- `catalog.DB.HasHash`: `SELECT COUNT(*) FROM images WHERE hash = ?` is
positive. -/
def hasHash (s : Store) (h : String) : Bool :=
  s.rows.any (fun img => img.hash == h)

/-- `catalog.DB.Insert`: `INSERT OR IGNORE INTO images ...`. A row whose
hash is already present is ignored by the UNIQUE constraint's conflict
resolution: the statement succeeds and no row is added. Otherwise the
statement either fails for environmental reasons (`dbOk img.hash = false`,
modelling a database error) or appends the row. -/
def catalogInsert (dbOk : String → Bool) (s : Store) (img : Image) :
    Except Err Unit × Store :=
  if hasHash s img.hash then (Except.ok (), s)
  else if dbOk img.hash then (Except.ok (), ⟨s.rows ++ [img]⟩)
  else (Except.error (Err.insertFail img.hash), s)

/-- The image directory: an association list from filename to file bytes. -/
abbrev FS := List (String × Bytes)

/-- Remove a file (`os.Remove`). -/
def removeFS (fs : FS) (f : String) : FS :=
  fs.filter (fun q => q.1 ≠ f)

/-- `os.WriteFile`: create or overwrite the file `f` with bytes `b`. -/
def writeFS (fs : FS) (f : String) (b : Bytes) : FS :=
  removeFS fs f ++ [(f, b)]

/-- Bytes currently stored under filename `f`, if the file exists. -/
def lookupFS (fs : FS) (f : String) : Option Bytes :=
  (fs.find? (fun q => q.1 == f)).map Prod.snd

/-- The mutable world the orchestrator acts on: catalog plus image dir. -/
structure St where
  store : Store
  files : FS
  deriving Repr, DecidableEq

/-- Environment oracles for one ingestion cycle, all deterministic:
* `dl url k` — network outcome of the `k`-th download attempt for `url`;
* `hashF` — `contentHash` (hex of the first 16 bytes of SHA-256; kept
  abstract since only determinism matters here);
* `tf` — `optimize.ForTerminal(data, 480)`: re-encoded bytes and final
  dimensions, or an error;
* `wOk f` — whether `os.WriteFile` succeeds for filename `f`;
* `dbOk h` — whether the catalog INSERT statement succeeds for hash `h`;
* `jitter` — the random source for backoff jitter. -/
structure Env where
  dl : String → Nat → AttemptResult
  hashF : Bytes → String
  tf : Bytes → Except Err (Bytes × Nat × Nat)
  wOk : String → Bool
  dbOk : String → Bool
  jitter : Nat → Nat

/-- The bytes and dimensions `processImage` actually stores
(ingest.go:199-205): the transformer's output, or — when the transformer
fails — the original downloaded bytes with the adapter-supplied
dimensions. -/
def optOf (e : Env) (data : Bytes) (origW origH : Nat) : Bytes × Nat × Nat :=
  match e.tf data with
  | Except.ok res => res
  | Except.error _ => (data, origW, origH)

/-- The catalog row `processImage` builds (ingest.go:215-225): format is
the constant "webp", filename is `hash + ".webp"`, size is the length of
the stored bytes. -/
def imgOf (e : Env) (data : Bytes) (srcURL source category : String)
    (origW origH : Nat) : Image :=
  { hash := e.hashF data
    source := source
    sourceURL := srcURL
    category := category
    width := (optOf e data origW origH).2.1
    height := (optOf e data origW origH).2.2
    format := "webp"
    sizeBytes := (optOf e data origW origH).1.length
    filename := e.hashF data ++ ".webp" }

/-- The post-download part of `processImage` (ingest.go:188-231): hash,
dedup check, optimize with fallback, file write, catalog insert with file
rollback on insert failure. -/
def storeCandidate (e : Env) (s : St) (data : Bytes)
    (srcURL source category : String) (origW origH : Nat) :
    Except Err Nat × St :=
  let hash := e.hashF data
  if hasHash s.store hash then (Except.ok 0, s)
  else
    let filename := hash ++ ".webp"
    if e.wOk filename then
      let files1 := writeFS s.files filename (optOf e data origW origH).1
      match catalogInsert e.dbOk s.store
          (imgOf e data srcURL source category origW origH) with
      | (Except.ok _, st2) => (Except.ok 1, { store := st2, files := files1 })
      | (Except.error er, st2) =>
          (Except.error er, { store := st2, files := removeFS files1 filename })
    else (Except.error (Err.writeFile filename), s)

/-- `processImage` (ingest.go:176-232): acquire a download token, download
with retry, then `storeCandidate`. Returns the result (1 new, 0 duplicate,
or an error), the new world state, and the event trace. -/
def processImage (e : Env) (s : St) (srcURL source category : String)
    (origW origH : Nat) : Except Err Nat × St × List Ev :=
  let dlr := downloadImage e.jitter (e.dl srcURL)
  let tr := Ev.tokenWait :: dlr.2
  match dlr.1 with
  | Except.error er => (Except.error er, s, tr)
  | Except.ok data =>
      let r := storeCandidate e s data srcURL source category origW origH
      (r.1, r.2, tr)

/-! ### The source adapters and `Ingester.Run` -/

/-- A candidate produced by a source adapter: image URL plus the
dimensions the upstream reported (0 when unknown). -/
structure Cand where
  url : String
  width : Nat
  height : Nat
  deriving Repr, DecidableEq

/-- The per-candidate loop shared by both adapters (ingest.go:128-137 and
162-171): process each candidate in order; a per-candidate error is
logged and skipped (`continue`), a success adds its 0-or-1 count. -/
def processList (e : Env) (source category : String) :
    List Cand → St → Nat × St × List Ev
  | [], s => (0, s, [])
  | c :: cs, s =>
      let r := processImage e s c.url source category c.width c.height
      let n := match r.1 with | Except.ok k => k | Except.error _ => 0
      let rest := processList e source category cs r.2.1
      (n + rest.1, rest.2.1, r.2.2 ++ rest.2.2)

/-- `ingestWaifuIm` (ingest.go:106-138): wait on the waifu.im limiter,
fetch the search endpoint with retry, unmarshal (`parse`, an oracle for
`json.Unmarshal` into `waifuImResponse`), then process each item with its
reported width/height. The leading `adapterCall` event marks the adapter
invocation. -/
def ingestWaifuIm (e : Env) (fetchOut : Nat → AttemptResult)
    (parse : Bytes → Except Err (List Cand)) (category : String) (s : St) :
    Except Err Nat × St × List Ev :=
  let f := fetchWithRetry e.jitter fetchOut "waifu.im"
  let pre := Ev.adapterCall "waifu.im" category :: Ev.tokenWait :: f.2
  match f.1 with
  | Except.error er => (Except.error er, s, pre)
  | Except.ok body =>
      match parse body with
      | Except.error er => (Except.error er, s, pre)
      | Except.ok cands =>
          let r := processList e "waifu.im" category cands s
          (Except.ok r.1, r.2.1, pre ++ r.2.2)

/-- `ingestWaifuPics` (ingest.go:145-172): like `ingestWaifuIm` but the
response is a bare list of file URLs, and every candidate is processed
with dimensions 0, 0. -/
def ingestWaifuPics (e : Env) (fetchOut : Nat → AttemptResult)
    (parse : Bytes → Except Err (List String)) (category : String) (s : St) :
    Except Err Nat × St × List Ev :=
  let f := fetchWithRetry e.jitter fetchOut "waifu.pics"
  let pre := Ev.adapterCall "waifu.pics" category :: Ev.tokenWait :: f.2
  match f.1 with
  | Except.error er => (Except.error er, s, pre)
  | Except.ok body =>
      match parse body with
      | Except.error er => (Except.error er, s, pre)
      | Except.ok urls =>
          let r := processList e "waifu.pics" category
            (urls.map (fun u => { url := u, width := 0, height := 0 })) s
          (Except.ok r.1, r.2.1, pre ++ r.2.2)

/-- The upstream world one `Ingester.Run` cycle sees, all deterministic:
per-category network outcomes for the two list endpoints, the two JSON
parsers, and the per-candidate environment. -/
structure RunEnv where
  env : Env
  imFetch : String → Nat → AttemptResult
  imParse : Bytes → Except Err (List Cand)
  picsFetch : String → Nat → AttemptResult
  picsParse : Bytes → Except Err (List String)

/-- The count Go's `Run` adds for one source: `n` is 0 when the source's
ingest returned an error (the named return is zero on every error path). -/
def newCount : Except Err Nat → Nat
  | Except.ok n => n
  | Except.error _ => 0

/-- `Ingester.Run` (ingest.go:63-95): invoke all four (source, category)
adapters in order, logging each error and adding each count; always
returns `total, nil`. -/
def run (re : RunEnv) (s : St) : Except Err Nat × St × List Ev :=
  let r1 := ingestWaifuIm re.env (re.imFetch "sfw") re.imParse "sfw" s
  let r2 := ingestWaifuIm re.env (re.imFetch "nsfw") re.imParse "nsfw" r1.2.1
  let r3 := ingestWaifuPics re.env (re.picsFetch "sfw") re.picsParse "sfw" r2.2.1
  let r4 := ingestWaifuPics re.env (re.picsFetch "nsfw") re.picsParse "nsfw" r3.2.1
  (Except.ok (newCount r1.1 + newCount r2.1 + newCount r3.1 + newCount r4.1),
   r4.2.1, r1.2.2 ++ r2.2.2 ++ r3.2.2 ++ r4.2.2)

/-- The (source, category) pairs of the adapter invocations in a trace. -/
def adapterCalls (tr : List Ev) : List (String × String) :=
  tr.filterMap (fun ev =>
    match ev with
    | Ev.adapterCall s c => some (s, c)
    | _ => none)

/-! ### Derived notions used in the statements and proofs -/

/-- Classifies one `fetchWithRetry` attempt outcome: `some e` when the
loop records `e` as `lastErr` and retries (transport failure, 429/5xx
status, or a body-read error on a 200 response), `none` when the loop
exits on this attempt (success or terminal status). Read off the branch
structure of ingest.go:311-330. -/
def fetchRetryErr (source : String) : AttemptResult → Option Err
  | AttemptResult.transportErr msg => some (Err.transport msg)
  | AttemptResult.response status body =>
      if status = 429 ∨ 500 ≤ status then some (Err.apiStatus source status)
      else if status = 200 then
        match (readCapped body (1 <<< 20)).2 with
        | some msg => some (Err.bodyRead msg)
        | none => none
      else none

/-- Same classification for the `downloadImage` loop (ingest.go:252-274). -/
def dlRetryErr : AttemptResult → Option Err
  | AttemptResult.transportErr msg => some (Err.transport msg)
  | AttemptResult.response status body =>
      if status = 429 ∨ 500 ≤ status then some (Err.dlStatus status)
      else if status = 200 then
        match (readCapped body (10 <<< 20)).2 with
        | some msg => some (Err.bodyRead msg)
        | none => none
      else none

/-- The download result `processImage` obtains for a URL. -/
def dlOf (e : Env) (url : String) : Except Err Bytes :=
  (downloadImage e.jitter (e.dl url)).1

/-- `s'` still has every content hash `s` has. -/
def keepsHashes (s s' : St) : Prop :=
  ∀ h, hasHash s.store h = true → hasHash s'.store h = true

/-- The candidate's content (if its download succeeds) is already present
in the store of `s`. -/
def hashSettled (e : Env) (s : St) (c : Cand) : Prop :=
  ∀ data, dlOf e c.url = Except.ok data → hasHash s.store (e.hashF data) = true

/-- Consistency invariant: every file in the image directory has a
catalog row carrying its filename. -/
def filesHaveRows (s : St) : Prop :=
  ∀ p ∈ s.files, ∃ img ∈ s.store.rows, img.filename = p.1

/-- The stored-encoding discipline of `processImage`: the row's format
tag is the constant "webp" and its filename is the hash plus ".webp". -/
def WebpRow (img : Image) : Prop :=
  img.format = "webp" ∧ img.filename = img.hash ++ ".webp"

/-! ### Concrete instances used by witnesses and counterexamples -/

/-- A zero random source (no jitter). -/
def rZero : Nat → Nat := fun _ => 0

/-- A network that answers every attempt with HTTP 500 and an empty body. -/
def out500 : Nat → AttemptResult :=
  fun _ => AttemptResult.response 500 { data := [], terminal := none }

/-- A network that answers every attempt with HTTP 404 and an empty body. -/
def out404 : Nat → AttemptResult :=
  fun _ => AttemptResult.response 404 { data := [], terminal := none }

/-- A clean body one byte longer than the 1MB API cap. -/
def bigBody : BodyStream :=
  { data := List.replicate (1048576 + 1) 0, terminal := none }

/-- A clean body one byte longer than the 10MB download cap. -/
def bigBody10 : BodyStream :=
  { data := List.replicate (10485760 + 1) 0, terminal := none }

/-- An environment whose downloads succeed with bytes `[1, 2, 3]` and
whose transformer always fails, exercising the fallback path. -/
def envOkFallback : Env :=
  { dl := fun _ _ => AttemptResult.response 200 { data := [1, 2, 3], terminal := none }
    hashF := fun _ => "h0"
    tf := fun _ => Except.error Err.decodeFail
    wOk := fun _ => true
    dbOk := fun _ => true
    jitter := fun _ => 0 }

/-- An environment whose downloads always fail with HTTP 500. -/
def envAll500 : Env :=
  { dl := fun _ _ => AttemptResult.response 500 { data := [], terminal := none }
    hashF := fun _ => "h0"
    tf := fun _ => Except.error Err.decodeFail
    wOk := fun _ => true
    dbOk := fun _ => true
    jitter := fun _ => 0 }

/-- The empty initial world. -/
def st0 : St := { store := { rows := [] }, files := [] }

/-- A concrete cycle environment: waifu.im answers with one candidate,
waifu.pics always fails with HTTP 500. -/
def re0 : RunEnv :=
  { env := envOkFallback
    imFetch := fun _ _ => AttemptResult.response 200 { data := [], terminal := none }
    imParse := fun _ => Except.ok [{ url := "u", width := 5, height := 7 }]
    picsFetch := fun _ _ => AttemptResult.response 500 { data := [], terminal := none }
    picsParse := fun _ => Except.ok [] }

/-! ### Helper lemmas: one-step and whole-loop behaviour of the retry loops -/


theorem fetchAux_zero (r : Nat → Nat) (out : Nat → AttemptResult) (source : String)
    (attempt : Nat) (last : Option Err) :
    fetchAux r out source 0 attempt last
      = (Except.error (Err.retriesExhausted maxRetries last), []) := rfl

theorem fetchAux_retry (r : Nat → Nat) (out : Nat → AttemptResult) (source : String)
    (fuel attempt : Nat) (last : Option Err) (e : Err)
    (h : fetchRetryErr source (out attempt) = some e) :
    fetchAux r out source (fuel + 1) attempt last
      = ((fetchAux r out source fuel (attempt + 1) (some e)).1,
         (if attempt = 0 then [] else
           [Ev.sleep (backoffDuration r attempt), Ev.tokenWait])
           ++ Ev.request :: (fetchAux r out source fuel (attempt + 1) (some e)).2) := by
  cases hout : out attempt with
  | transportErr msg =>
      simp only [fetchRetryErr, hout, Option.some.injEq] at h
      simp only [fetchAux, hout, ← h]
  | response status body =>
      simp only [fetchRetryErr, hout] at h
      by_cases hc : status = 429 ∨ 500 ≤ status
      · simp only [if_pos hc, Option.some.injEq] at h
        simp only [fetchAux, hout, if_pos hc, ← h]
      · by_cases h200 : status = 200
        · subst h200
          simp only [if_neg hc, if_pos rfl] at h
          cases hrd : (readCapped body (1 <<< 20)).2 with
          | none => rw [hrd] at h; exact absurd h (by simp)
          | some msg =>
              rw [hrd] at h
              simp only [Option.some.injEq] at h
              simp only [fetchAux, hout, if_neg hc, ne_eq, not_true_eq_false,
                if_false, hrd, ← h]
              simp
        · simp only [if_neg hc, if_neg h200] at h
          exact absurd h (by simp)



theorem fetchAux_terminal (r : Nat → Nat) (out : Nat → AttemptResult) (source : String)
    (fuel attempt : Nat) (last : Option Err) (status : Nat) (body : BodyStream)
    (hout : out attempt = AttemptResult.response status body)
    (hc : ¬ (status = 429 ∨ 500 ≤ status)) (h200 : status ≠ 200) :
    fetchAux r out source (fuel + 1) attempt last
      = (Except.error (Err.apiStatus source status),
         (if attempt = 0 then [] else
           [Ev.sleep (backoffDuration r attempt), Ev.tokenWait]) ++ [Ev.request]) := by
  simp only [fetchAux, hout, if_neg hc, if_pos h200]

theorem fetchAux_ok (r : Nat → Nat) (out : Nat → AttemptResult) (source : String)
    (fuel attempt : Nat) (last : Option Err) (body : BodyStream)
    (hout : out attempt = AttemptResult.response 200 body)
    (hrd : (readCapped body (1 <<< 20)).2 = none) :
    fetchAux r out source (fuel + 1) attempt last
      = (Except.ok (readCapped body (1 <<< 20)).1,
         (if attempt = 0 then [] else
           [Ev.sleep (backoffDuration r attempt), Ev.tokenWait]) ++ [Ev.request]) := by
  simp only [fetchAux, hout, hrd]
  norm_num

theorem downloadAux_zero (r : Nat → Nat) (out : Nat → AttemptResult)
    (attempt : Nat) (last : Option Err) :
    downloadAux r out 0 attempt last
      = (Except.error (Err.retriesExhausted maxRetries last), []) := rfl

theorem downloadAux_retry (r : Nat → Nat) (out : Nat → AttemptResult)
    (fuel attempt : Nat) (last : Option Err) (e : Err)
    (h : dlRetryErr (out attempt) = some e) :
    downloadAux r out (fuel + 1) attempt last
      = ((downloadAux r out fuel (attempt + 1) (some e)).1,
         (if attempt = 0 then [] else [Ev.sleep (backoffDuration r attempt)])
           ++ Ev.request :: (downloadAux r out fuel (attempt + 1) (some e)).2) := by
  cases hout : out attempt with
  | transportErr msg =>
      simp only [dlRetryErr, hout, Option.some.injEq] at h
      simp only [downloadAux, hout, ← h]
  | response status body =>
      simp only [dlRetryErr, hout] at h
      by_cases hc : status = 429 ∨ 500 ≤ status
      · simp only [if_pos hc, Option.some.injEq] at h
        simp only [downloadAux, hout, if_pos hc, ← h]
      · by_cases h200 : status = 200
        · subst h200
          simp only [if_neg hc, if_pos rfl] at h
          cases hrd : (readCapped body (10 <<< 20)).2 with
          | none => rw [hrd] at h; exact absurd h (by simp)
          | some msg =>
              rw [hrd] at h
              simp only [Option.some.injEq] at h
              simp only [downloadAux, hout, if_neg hc, ne_eq, not_true_eq_false,
                if_false, hrd, ← h]
              simp
        · simp only [if_neg hc, if_neg h200] at h
          exact absurd h (by simp)

theorem downloadAux_terminal (r : Nat → Nat) (out : Nat → AttemptResult)
    (fuel attempt : Nat) (last : Option Err) (status : Nat) (body : BodyStream)
    (hout : out attempt = AttemptResult.response status body)
    (hc : ¬ (status = 429 ∨ 500 ≤ status)) (h200 : status ≠ 200) :
    downloadAux r out (fuel + 1) attempt last
      = (Except.error (Err.dlStatus status),
         (if attempt = 0 then [] else [Ev.sleep (backoffDuration r attempt)])
           ++ [Ev.request]) := by
  simp only [downloadAux, hout, if_neg hc, if_pos h200]

theorem downloadAux_ok (r : Nat → Nat) (out : Nat → AttemptResult)
    (fuel attempt : Nat) (last : Option Err) (body : BodyStream)
    (hout : out attempt = AttemptResult.response 200 body)
    (hrd : (readCapped body (10 <<< 20)).2 = none) :
    downloadAux r out (fuel + 1) attempt last
      = (Except.ok (readCapped body (10 <<< 20)).1,
         (if attempt = 0 then [] else [Ev.sleep (backoffDuration r attempt)])
           ++ [Ev.request]) := by
  simp only [downloadAux, hout, hrd]
  norm_num



theorem fetch_allRetry (r : Nat → Nat) (out : Nat → AttemptResult) (source : String)
    (h : ∀ k, k < maxRetries → (fetchRetryErr source (out k)).isSome = true) :
    fetchWithRetry r out source
      = (Except.error (Err.retriesExhausted maxRetries (fetchRetryErr source (out 2))),
         [Ev.request, Ev.sleep (backoffDuration r 1), Ev.tokenWait, Ev.request,
          Ev.sleep (backoffDuration r 2), Ev.tokenWait, Ev.request]) := by
  obtain ⟨e0, h0⟩ := Option.isSome_iff_exists.mp (h 0 (by decide))
  obtain ⟨e1, h1⟩ := Option.isSome_iff_exists.mp (h 1 (by decide))
  obtain ⟨e2, h2⟩ := Option.isSome_iff_exists.mp (h 2 (by decide))
  have s0 := fetchAux_retry r out source 2 0 none e0 h0
  have s1 := fetchAux_retry r out source 1 1 (some e0) e1 h1
  have s2 := fetchAux_retry r out source 0 2 (some e1) e2 h2
  norm_num at s0 s1 s2
  rw [fetchAux_zero] at s2
  rw [s2] at s1
  rw [s1] at s0
  simp only [fetchWithRetry, maxRetries, s0, h2]

theorem fetch_terminalFirst (r : Nat → Nat) (out : Nat → AttemptResult) (source : String)
    (status : Nat) (body : BodyStream)
    (hout : out 0 = AttemptResult.response status body)
    (hc : ¬ (status = 429 ∨ 500 ≤ status)) (h200 : status ≠ 200) :
    fetchWithRetry r out source
      = (Except.error (Err.apiStatus source status), [Ev.request]) := by
  have s0 := fetchAux_terminal r out source 2 0 none status body hout hc h200
  norm_num at s0
  simpa only [fetchWithRetry, maxRetries] using s0

theorem fetch_okFirst (r : Nat → Nat) (out : Nat → AttemptResult) (source : String)
    (body : BodyStream)
    (hout : out 0 = AttemptResult.response 200 body)
    (hrd : (readCapped body (1 <<< 20)).2 = none) :
    fetchWithRetry r out source
      = (Except.ok (readCapped body (1 <<< 20)).1, [Ev.request]) := by
  have s0 := fetchAux_ok r out source 2 0 none body hout hrd
  norm_num at s0
  simpa only [fetchWithRetry, maxRetries] using s0

theorem download_allRetry (r : Nat → Nat) (out : Nat → AttemptResult)
    (h : ∀ k, k < maxRetries → (dlRetryErr (out k)).isSome = true) :
    downloadImage r out
      = (Except.error (Err.retriesExhausted maxRetries (dlRetryErr (out 2))),
         [Ev.request, Ev.sleep (backoffDuration r 1), Ev.request,
          Ev.sleep (backoffDuration r 2), Ev.request]) := by
  obtain ⟨e0, h0⟩ := Option.isSome_iff_exists.mp (h 0 (by decide))
  obtain ⟨e1, h1⟩ := Option.isSome_iff_exists.mp (h 1 (by decide))
  obtain ⟨e2, h2⟩ := Option.isSome_iff_exists.mp (h 2 (by decide))
  have s0 := downloadAux_retry r out 2 0 none e0 h0
  have s1 := downloadAux_retry r out 1 1 (some e0) e1 h1
  have s2 := downloadAux_retry r out 0 2 (some e1) e2 h2
  norm_num at s0 s1 s2
  rw [downloadAux_zero] at s2
  rw [s2] at s1
  rw [s1] at s0
  simp only [downloadImage, maxRetries, s0, h2]

theorem download_okFirst (r : Nat → Nat) (out : Nat → AttemptResult)
    (body : BodyStream)
    (hout : out 0 = AttemptResult.response 200 body)
    (hrd : (readCapped body (10 <<< 20)).2 = none) :
    downloadImage r out
      = (Except.ok (readCapped body (10 <<< 20)).1, [Ev.request]) := by
  have s0 := downloadAux_ok r out 2 0 none body hout hrd
  norm_num at s0
  simpa only [downloadImage, maxRetries] using s0


/-! ### Helper lemmas: trace contents of the loops -/


theorem downloadAux_events (r : Nat → Nat) (out : Nat → AttemptResult) :
    ∀ (fuel attempt : Nat) (last : Option Err) (ev : Ev),
      ev ∈ (downloadAux r out fuel attempt last).2 →
      ev = Ev.request ∨ ∃ ns, ev = Ev.sleep ns := by
  intro fuel
  induction fuel with
  | zero => intro attempt last ev hev; simp [downloadAux_zero] at hev
  | succ fuel ih =>
      intro attempt last ev hev
      have hpre : ∀ ev' : Ev,
          ev' ∈ (if attempt = 0 then ([] : List Ev)
                 else [Ev.sleep (backoffDuration r attempt)]) →
          ev' = Ev.request ∨ ∃ ns, ev' = Ev.sleep ns := by
        intro ev' h'
        split at h'
        · simp at h'
        · simp only [List.mem_singleton] at h'
          exact Or.inr ⟨_, h'⟩
      cases hout : out attempt with
      | transportErr msg =>
          simp only [downloadAux, hout, List.mem_append, List.mem_cons] at hev
          rcases hev with h' | h' | h'
          · exact hpre ev h'
          · exact Or.inl h'
          · exact ih (attempt + 1) _ ev h'
      | response status body =>
          by_cases hc : status = 429 ∨ 500 ≤ status
          · simp only [downloadAux, hout, if_pos hc, List.mem_append, List.mem_cons] at hev
            rcases hev with h' | h' | h'
            · exact hpre ev h'
            · exact Or.inl h'
            · exact ih (attempt + 1) _ ev h'
          · by_cases h200 : status = 200
            · subst h200
              cases hrd : (readCapped body (10 <<< 20)).2 with
              | some msg =>
                  simp only [downloadAux, hout, if_neg hc, ne_eq, not_true_eq_false,
                    if_false, hrd, List.mem_append, List.mem_cons] at hev
                  rcases hev with h' | h' | h'
                  · exact hpre ev h'
                  · exact Or.inl h'
                  · exact ih (attempt + 1) _ ev h'
              | none =>
                  simp only [downloadAux, hout, if_neg hc, ne_eq, not_true_eq_false,
                    if_false, hrd, List.mem_append, List.mem_cons] at hev
                  rcases hev with h' | h'
                  · exact hpre ev h'
                  · exact Or.inl (by simpa using h')
            · simp only [downloadAux, hout, if_neg hc, if_pos h200, List.mem_append,
                List.mem_cons] at hev
              rcases hev with h' | h'
              · exact hpre ev h'
              · exact Or.inl (by simpa using h')



theorem fetchAux_events (r : Nat → Nat) (out : Nat → AttemptResult) (source : String) :
    ∀ (fuel attempt : Nat) (last : Option Err) (ev : Ev),
      ev ∈ (fetchAux r out source fuel attempt last).2 →
      ev = Ev.request ∨ ev = Ev.tokenWait ∨ ∃ ns, ev = Ev.sleep ns := by
  intro fuel
  induction fuel with
  | zero => intro attempt last ev hev; simp [fetchAux_zero] at hev
  | succ fuel ih =>
      intro attempt last ev hev
      have hpre : ∀ ev' : Ev,
          ev' ∈ (if attempt = 0 then ([] : List Ev)
                 else [Ev.sleep (backoffDuration r attempt), Ev.tokenWait]) →
          ev' = Ev.request ∨ ev' = Ev.tokenWait ∨ ∃ ns, ev' = Ev.sleep ns := by
        intro ev' h'
        split at h'
        · simp at h'
        · simp only [List.mem_cons, List.mem_singleton] at h'
          rcases h' with h' | h' | h'
          · exact Or.inr (Or.inr ⟨_, h'⟩)
          · exact Or.inr (Or.inl h')
          · simp at h'
      cases hout : out attempt with
      | transportErr msg =>
          simp only [fetchAux, hout, List.mem_append, List.mem_cons] at hev
          rcases hev with h' | h' | h'
          · exact hpre ev h'
          · exact Or.inl h'
          · exact ih (attempt + 1) _ ev h'
      | response status body =>
          by_cases hc : status = 429 ∨ 500 ≤ status
          · simp only [fetchAux, hout, if_pos hc, List.mem_append, List.mem_cons] at hev
            rcases hev with h' | h' | h'
            · exact hpre ev h'
            · exact Or.inl h'
            · exact ih (attempt + 1) _ ev h'
          · by_cases h200 : status = 200
            · subst h200
              cases hrd : (readCapped body (1 <<< 20)).2 with
              | some msg =>
                  simp only [fetchAux, hout, if_neg hc, ne_eq, not_true_eq_false,
                    if_false, hrd, List.mem_append, List.mem_cons] at hev
                  rcases hev with h' | h' | h'
                  · exact hpre ev h'
                  · exact Or.inl h'
                  · exact ih (attempt + 1) _ ev h'
              | none =>
                  simp only [fetchAux, hout, if_neg hc, ne_eq, not_true_eq_false,
                    if_false, hrd, List.mem_append, List.mem_cons] at hev
                  rcases hev with h' | h'
                  · exact hpre ev h'
                  · exact Or.inl (by simpa using h')
            · simp only [fetchAux, hout, if_neg hc, if_pos h200, List.mem_append,
                List.mem_cons] at hev
              rcases hev with h' | h'
              · exact hpre ev h'
              · exact Or.inl (by simpa using h')

theorem downloadImage_no_tokenWait (r : Nat → Nat) (out : Nat → AttemptResult) :
    tokenWaitCount (downloadImage r out).2 = 0 := by
  rw [tokenWaitCount, List.countP_eq_zero]
  intro ev hev
  rcases downloadAux_events r out maxRetries 0 none ev hev with h | ⟨ns, h⟩ <;>
    subst h <;> simp

theorem downloadImage_no_adapter (r : Nat → Nat) (out : Nat → AttemptResult) :
    adapterCalls (downloadImage r out).2 = [] := by
  rw [adapterCalls, List.filterMap_eq_nil_iff]
  intro ev hev
  rcases downloadAux_events r out maxRetries 0 none ev hev with h | ⟨ns, h⟩ <;>
    subst h <;> simp

theorem fetch_no_adapter (r : Nat → Nat) (out : Nat → AttemptResult) (source : String) :
    adapterCalls (fetchWithRetry r out source).2 = [] := by
  rw [adapterCalls, List.filterMap_eq_nil_iff]
  intro ev hev
  rcases fetchAux_events r out source maxRetries 0 none ev hev with h | h | ⟨ns, h⟩ <;>
    subst h <;> simp

theorem processImage_one_tokenWait (e : Env) (s : St)
    (srcURL source category : String) (origW origH : Nat) :
    tokenWaitCount (processImage e s srcURL source category origW origH).2.2 = 1 := by
  have hdl := downloadImage_no_tokenWait e.jitter (e.dl srcURL)
  rw [tokenWaitCount] at hdl ⊢
  cases hres : (downloadImage e.jitter (e.dl srcURL)).1 <;>
    simp [processImage, hres, List.countP_cons, hdl]

theorem processImage_no_adapter (e : Env) (s : St)
    (srcURL source category : String) (origW origH : Nat) :
    adapterCalls (processImage e s srcURL source category origW origH).2.2 = [] := by
  have hdl := downloadImage_no_adapter e.jitter (e.dl srcURL)
  rw [adapterCalls] at hdl ⊢
  cases hres : (downloadImage e.jitter (e.dl srcURL)).1 <;>
    simp [processImage, hres, hdl]

theorem processList_no_adapter (e : Env) (source category : String) :
    ∀ (cs : List Cand) (s : St),
      adapterCalls (processList e source category cs s).2.2 = [] := by
  intro cs
  induction cs with
  | nil => intro s; rfl
  | cons c cs ih =>
      intro s
      simp only [processList, adapterCalls, List.filterMap_append]
      have h1 := processImage_no_adapter e s c.url source category c.width c.height
      rw [adapterCalls] at h1
      rw [h1]
      have h2 := ih (processImage e s c.url source category c.width c.height).2.1
      rw [adapterCalls] at h2
      rw [h2]
      rfl


/-! ### Helper lemmas: the store, the candidate pipeline and the adapters -/


theorem catalogInsert_dup (dbOk : String → Bool) (st : Store) (img : Image)
    (h : hasHash st img.hash = true) :
    catalogInsert dbOk st img = (Except.ok (), st) := by
  rw [catalogInsert, if_pos h]

theorem catalogInsert_new (dbOk : String → Bool) (st : Store) (img : Image)
    (h : ¬ hasHash st img.hash = true) (h2 : dbOk img.hash = true) :
    catalogInsert dbOk st img = (Except.ok (), { rows := st.rows ++ [img] }) := by
  rw [catalogInsert, if_neg h, if_pos h2]

theorem catalogInsert_err (dbOk : String → Bool) (st : Store) (img : Image)
    (h : ¬ hasHash st img.hash = true) (h2 : ¬ dbOk img.hash = true) :
    catalogInsert dbOk st img = (Except.error (Err.insertFail img.hash), st) := by
  rw [catalogInsert, if_neg h, if_neg h2]

theorem storeCandidate_dup (e : Env) (s : St) (data : Bytes)
    (url src cat : String) (w h : Nat)
    (h1 : hasHash s.store (e.hashF data) = true) :
    storeCandidate e s data url src cat w h = (Except.ok 0, s) := by
  simp only [storeCandidate, h1, if_true]

theorem storeCandidate_wfail (e : Env) (s : St) (data : Bytes)
    (url src cat : String) (w h : Nat)
    (h1 : ¬ hasHash s.store (e.hashF data) = true)
    (h2 : ¬ e.wOk (e.hashF data ++ ".webp") = true) :
    storeCandidate e s data url src cat w h
      = (Except.error (Err.writeFile (e.hashF data ++ ".webp")), s) := by
  simp only [storeCandidate, h1, h2, if_neg, if_false, Bool.false_eq_true]

theorem storeCandidate_new (e : Env) (s : St) (data : Bytes)
    (url src cat : String) (w h : Nat)
    (h1 : ¬ hasHash s.store (e.hashF data) = true)
    (h2 : e.wOk (e.hashF data ++ ".webp") = true)
    (h3 : e.dbOk (e.hashF data) = true) :
    storeCandidate e s data url src cat w h
      = (Except.ok 1,
         { store := { rows := s.store.rows ++ [imgOf e data url src cat w h] }
           files := writeFS s.files (e.hashF data ++ ".webp") (optOf e data w h).1 }) := by
  have hci := catalogInsert_new e.dbOk s.store (imgOf e data url src cat w h)
    (by simpa [imgOf] using h1) (by simpa [imgOf] using h3)
  simp only [storeCandidate, h1, h2, if_true, if_false, Bool.false_eq_true, hci]

theorem storeCandidate_insfail (e : Env) (s : St) (data : Bytes)
    (url src cat : String) (w h : Nat)
    (h1 : ¬ hasHash s.store (e.hashF data) = true)
    (h2 : e.wOk (e.hashF data ++ ".webp") = true)
    (h3 : ¬ e.dbOk (e.hashF data) = true) :
    storeCandidate e s data url src cat w h
      = (Except.error (Err.insertFail (e.hashF data)),
         { store := s.store
           files := removeFS (writeFS s.files (e.hashF data ++ ".webp")
             (optOf e data w h).1) (e.hashF data ++ ".webp") }) := by
  have hci := catalogInsert_err e.dbOk s.store (imgOf e data url src cat w h)
    (by simpa [imgOf] using h1) (by simpa [imgOf] using h3)
  simp only [storeCandidate, h1, h2, if_true, if_false, Bool.false_eq_true, hci]
  simp_all [imgOf]

theorem processImage_dlErr (e : Env) (s : St) (url src cat : String)
    (w h : Nat) (er : Err)
    (hdl : (downloadImage e.jitter (e.dl url)).1 = Except.error er) :
    processImage e s url src cat w h
      = (Except.error er, s, Ev.tokenWait :: (downloadImage e.jitter (e.dl url)).2) := by
  simp only [processImage, hdl]

theorem processImage_dlOk (e : Env) (s : St) (url src cat : String)
    (w h : Nat) (data : Bytes)
    (hdl : (downloadImage e.jitter (e.dl url)).1 = Except.ok data) :
    processImage e s url src cat w h
      = ((storeCandidate e s data url src cat w h).1,
         (storeCandidate e s data url src cat w h).2,
         Ev.tokenWait :: (downloadImage e.jitter (e.dl url)).2) := by
  simp only [processImage, hdl]



theorem hasHash_append (st : Store) (l : List Image) (hsh : String)
    (hh : hasHash st hsh = true) : hasHash { rows := st.rows ++ l } hsh = true := by
  simp only [hasHash, List.any_append] at hh ⊢
  simp [hasHash] at hh
  simp [hh]

theorem hasHash_self (rows : List Image) (img : Image) :
    hasHash { rows := rows ++ [img] } img.hash = true := by
  simp [hasHash, List.any_append]

theorem keepsHashes_refl (s : St) : keepsHashes s s := fun _ hh => hh

theorem keepsHashes_trans {a b c : St} (h1 : keepsHashes a b)
    (h2 : keepsHashes b c) : keepsHashes a c :=
  fun h hh => h2 h (h1 h hh)

theorem storeCandidate_keeps (e : Env) (s : St) (data : Bytes)
    (url src cat : String) (w h : Nat) :
    keepsHashes s (storeCandidate e s data url src cat w h).2 := by
  intro hsh hh
  by_cases h1 : hasHash s.store (e.hashF data) = true
  · rw [storeCandidate_dup e s data url src cat w h h1]
    exact hh
  · by_cases h2 : e.wOk (e.hashF data ++ ".webp") = true
    · by_cases h3 : e.dbOk (e.hashF data) = true
      · rw [storeCandidate_new e s data url src cat w h h1 h2 h3]
        exact hasHash_append s.store _ hsh hh
      · rw [storeCandidate_insfail e s data url src cat w h h1 h2 h3]
        exact hh
    · rw [storeCandidate_wfail e s data url src cat w h h1 h2]
      exact hh

theorem processImage_keeps (e : Env) (s : St) (url src cat : String) (w h : Nat) :
    keepsHashes s (processImage e s url src cat w h).2.1 := by
  cases hdl : (downloadImage e.jitter (e.dl url)).1 with
  | error er => rw [processImage_dlErr e s url src cat w h er hdl]; exact keepsHashes_refl s
  | ok data =>
      rw [processImage_dlOk e s url src cat w h data hdl]
      exact storeCandidate_keeps e s data url src cat w h

theorem hashSettled_mono {e : Env} {s s' : St} {c : Cand}
    (hs : hashSettled e s c) (hk : keepsHashes s s') : hashSettled e s' c :=
  fun data hdl => hk _ (hs data hdl)

theorem processImage_settles (e : Env) (s : St) (src cat : String) (c : Cand)
    (hw : ∀ f, e.wOk f = true) (hdb : ∀ h, e.dbOk h = true) :
    hashSettled e (processImage e s c.url src cat c.width c.height).2.1 c := by
  intro data hdl
  rw [processImage_dlOk e s c.url src cat c.width c.height data hdl]
  by_cases h1 : hasHash s.store (e.hashF data) = true
  · rw [storeCandidate_dup e s data c.url src cat c.width c.height h1]
    exact h1
  · rw [storeCandidate_new e s data c.url src cat c.width c.height h1
      (hw _) (hdb _)]
    simpa [imgOf] using hasHash_self s.store.rows
      (imgOf e data c.url src cat c.width c.height)

theorem processImage_settled_noop (e : Env) (s : St) (src cat : String) (c : Cand)
    (hs : hashSettled e s c) :
    (processImage e s c.url src cat c.width c.height).2.1 = s
      ∧ newCount (processImage e s c.url src cat c.width c.height).1 = 0 := by
  cases hdl : (downloadImage e.jitter (e.dl c.url)).1 with
  | error er =>
      rw [processImage_dlErr e s c.url src cat c.width c.height er hdl]
      exact ⟨rfl, rfl⟩
  | ok data =>
      have hh := hs data hdl
      rw [processImage_dlOk e s c.url src cat c.width c.height data hdl,
        storeCandidate_dup e s data c.url src cat c.width c.height hh]
      exact ⟨rfl, rfl⟩

theorem processList_keeps (e : Env) (src cat : String) :
    ∀ (cs : List Cand) (s : St), keepsHashes s (processList e src cat cs s).2.1 := by
  intro cs
  induction cs with
  | nil => intro s; exact keepsHashes_refl s
  | cons c cs ih =>
      intro s
      simp only [processList]
      exact keepsHashes_trans (processImage_keeps e s c.url src cat c.width c.height)
        (ih (processImage e s c.url src cat c.width c.height).2.1)

theorem processList_settles (e : Env) (src cat : String)
    (hw : ∀ f, e.wOk f = true) (hdb : ∀ h, e.dbOk h = true) :
    ∀ (cs : List Cand) (s : St) (c : Cand), c ∈ cs →
      hashSettled e (processList e src cat cs s).2.1 c := by
  intro cs
  induction cs with
  | nil => intro s c hc; simp at hc
  | cons c0 cs ih =>
      intro s c hc
      rcases List.mem_cons.mp hc with hc | hc
      · subst hc
        simp only [processList]
        exact hashSettled_mono (processImage_settles e s src cat c hw hdb)
          (processList_keeps e src cat cs _)
      · simp only [processList]
        exact ih _ c hc

theorem processList_noop (e : Env) (src cat : String) :
    ∀ (cs : List Cand) (s : St), (∀ c ∈ cs, hashSettled e s c) →
      (processList e src cat cs s).1 = 0 ∧ (processList e src cat cs s).2.1 = s := by
  intro cs
  induction cs with
  | nil => intro s _; exact ⟨rfl, rfl⟩
  | cons c cs ih =>
      intro s hs
      have hc := processImage_settled_noop e s src cat c (hs c (List.mem_cons_self c cs))
      have hrest := ih s (fun c' hc' => hs c' (List.mem_cons_of_mem c hc'))
      simp only [processList, hc.1]
      constructor
      · rw [hrest.1]
        have : (match (processImage e s c.url src cat c.width c.height).1 with
            | Except.ok k => k | Except.error _ => 0) = 0 := by
          have := hc.2
          cases hr : (processImage e s c.url src cat c.width c.height).1 with
          | ok k => rw [hr] at this; simpa [newCount] using this
          | error er => rfl
        rw [this]
      · exact hrest.2



theorem ingestWaifuIm_keeps (e : Env) (fo : Nat → AttemptResult)
    (parse : Bytes → Except Err (List Cand)) (cat : String) (s : St) :
    keepsHashes s (ingestWaifuIm e fo parse cat s).2.1 := by
  cases hf : (fetchWithRetry e.jitter fo "waifu.im").1 with
  | error er => simp only [ingestWaifuIm, hf]; exact keepsHashes_refl s
  | ok body =>
      cases hp : parse body with
      | error er => simp only [ingestWaifuIm, hf, hp]; exact keepsHashes_refl s
      | ok cands =>
          simp only [ingestWaifuIm, hf, hp]
          exact processList_keeps e "waifu.im" cat cands s

theorem ingestWaifuPics_keeps (e : Env) (fo : Nat → AttemptResult)
    (parse : Bytes → Except Err (List String)) (cat : String) (s : St) :
    keepsHashes s (ingestWaifuPics e fo parse cat s).2.1 := by
  cases hf : (fetchWithRetry e.jitter fo "waifu.pics").1 with
  | error er => simp only [ingestWaifuPics, hf]; exact keepsHashes_refl s
  | ok body =>
      cases hp : parse body with
      | error er => simp only [ingestWaifuPics, hf, hp]; exact keepsHashes_refl s
      | ok urls =>
          simp only [ingestWaifuPics, hf, hp]
          exact processList_keeps e "waifu.pics" cat _ s

theorem ingestWaifuIm_idem (e : Env) (fo : Nat → AttemptResult)
    (parse : Bytes → Except Err (List Cand)) (cat : String) (s s1 : St)
    (hw : ∀ f, e.wOk f = true) (hdb : ∀ h, e.dbOk h = true)
    (hk : keepsHashes (ingestWaifuIm e fo parse cat s).2.1 s1) :
    (ingestWaifuIm e fo parse cat s1).2.1 = s1
      ∧ newCount (ingestWaifuIm e fo parse cat s1).1 = 0 := by
  cases hf : (fetchWithRetry e.jitter fo "waifu.im").1 with
  | error er => simp only [ingestWaifuIm, hf]; exact ⟨trivial, rfl⟩
  | ok body =>
      cases hp : parse body with
      | error er => simp only [ingestWaifuIm, hf, hp]; exact ⟨trivial, rfl⟩
      | ok cands =>
          simp only [ingestWaifuIm, hf, hp] at hk ⊢
          have hset : ∀ c ∈ cands, hashSettled e s1 c := fun c hc =>
            hashSettled_mono
              (processList_settles e "waifu.im" cat hw hdb cands s c hc) hk
          have hnp := processList_noop e "waifu.im" cat cands s1 hset
          exact ⟨hnp.2, by simp [newCount, hnp.1]⟩

theorem ingestWaifuPics_idem (e : Env) (fo : Nat → AttemptResult)
    (parse : Bytes → Except Err (List String)) (cat : String) (s s1 : St)
    (hw : ∀ f, e.wOk f = true) (hdb : ∀ h, e.dbOk h = true)
    (hk : keepsHashes (ingestWaifuPics e fo parse cat s).2.1 s1) :
    (ingestWaifuPics e fo parse cat s1).2.1 = s1
      ∧ newCount (ingestWaifuPics e fo parse cat s1).1 = 0 := by
  cases hf : (fetchWithRetry e.jitter fo "waifu.pics").1 with
  | error er => simp only [ingestWaifuPics, hf]; exact ⟨trivial, rfl⟩
  | ok body =>
      cases hp : parse body with
      | error er => simp only [ingestWaifuPics, hf, hp]; exact ⟨trivial, rfl⟩
      | ok urls =>
          simp only [ingestWaifuPics, hf, hp] at hk ⊢
          have hset : ∀ c ∈ urls.map (fun u => Cand.mk u 0 0),
              hashSettled e s1 c := fun c hc =>
            hashSettled_mono
              (processList_settles e "waifu.pics" cat hw hdb _ s c hc) hk
          have hnp := processList_noop e "waifu.pics" cat _ s1 hset
          exact ⟨hnp.2, by simp [newCount, hnp.1]⟩

theorem ingestWaifuIm_adapter (e : Env) (fo : Nat → AttemptResult)
    (parse : Bytes → Except Err (List Cand)) (cat : String) (s : St) :
    adapterCalls (ingestWaifuIm e fo parse cat s).2.2 = [("waifu.im", cat)] := by
  have hfa := fetch_no_adapter e.jitter fo "waifu.im"
  rw [adapterCalls] at hfa
  cases hf : (fetchWithRetry e.jitter fo "waifu.im").1 with
  | error er => simp [ingestWaifuIm, hf, adapterCalls, hfa]
  | ok body =>
      cases hp : parse body with
      | error er => simp [ingestWaifuIm, hf, hp, adapterCalls, hfa]
      | ok cands =>
          have hpl := processList_no_adapter e "waifu.im" cat cands s
          rw [adapterCalls] at hpl
          simp [ingestWaifuIm, hf, hp, adapterCalls, hfa, hpl]

theorem ingestWaifuPics_adapter (e : Env) (fo : Nat → AttemptResult)
    (parse : Bytes → Except Err (List String)) (cat : String) (s : St) :
    adapterCalls (ingestWaifuPics e fo parse cat s).2.2 = [("waifu.pics", cat)] := by
  have hfa := fetch_no_adapter e.jitter fo "waifu.pics"
  rw [adapterCalls] at hfa
  cases hf : (fetchWithRetry e.jitter fo "waifu.pics").1 with
  | error er => simp [ingestWaifuPics, hf, adapterCalls, hfa]
  | ok body =>
      cases hp : parse body with
      | error er => simp [ingestWaifuPics, hf, hp, adapterCalls, hfa]
      | ok urls =>
          have hpl := processList_no_adapter e "waifu.pics" cat
            (urls.map (fun u => Cand.mk u 0 0)) s
          rw [adapterCalls] at hpl
          simp [ingestWaifuPics, hf, hp, adapterCalls, hfa, hpl]


/-! ### Helper lemmas: the image directory -/


theorem find?_removeFS (fs : FS) (f : String) :
    List.find? (fun q => q.1 == f) (removeFS fs f) = none := by
  rw [List.find?_eq_none]
  intro x hx
  rw [removeFS] at hx
  have := List.of_mem_filter hx
  simp at this
  simp [this]

theorem lookupFS_writeFS (fs : FS) (f : String) (b : Bytes) :
    lookupFS (writeFS fs f b) f = some b := by
  rw [lookupFS, writeFS, List.find?_append, find?_removeFS]
  simp

theorem mem_removeFS {fs : FS} {f : String} {p : String × Bytes}
    (h : p ∈ removeFS fs f) : p ∈ fs ∧ ¬ p.1 = f := by
  rw [removeFS] at h
  refine ⟨List.mem_of_mem_filter h, ?_⟩
  have := List.of_mem_filter h
  simpa using this

theorem mem_writeFS {fs : FS} {f : String} {b : Bytes} {p : String × Bytes}
    (h : p ∈ writeFS fs f b) : p = (f, b) ∨ p ∈ fs := by
  rw [writeFS] at h
  rcases List.mem_append.mp h with h | h
  · exact Or.inr (mem_removeFS h).1
  · exact Or.inl (by simpa using h)


/-! ### Helper lemma: adapter calls distribute over appended traces -/

theorem adapterCalls_append (a b : List Ev) :
    adapterCalls (a ++ b) = adapterCalls a ++ adapterCalls b := by
  simp [adapterCalls, List.filterMap_append]

/-! ### The claims -/

/-- C1 (counterexample): the claim "a response body exceeding the cap makes
the read fail" is false. For a clean body one byte over the 1MB cap, the
API fetch returns success with exactly the 1MB-prefix of the body, and the
10MB download path behaves the same; nothing fails. -/
theorem read_cap_truncation_cex :
    1048576 < bigBody.data.length
    ∧ (fetchWithRetry rZero (fun _ => AttemptResult.response 200 bigBody) "waifu.im").1
        = Except.ok (List.replicate 1048576 0)
    ∧ (List.replicate 1048576 (0 : Nat)).length = 1048576
    ∧ 10485760 < bigBody10.data.length
    ∧ (downloadImage rZero (fun _ => AttemptResult.response 200 bigBody10)).1
        = Except.ok (List.replicate 10485760 0) := by
  have hrd : (readCapped bigBody (1 <<< 20)).2 = none := by
    simp only [readCapped, readAll, limitReader, bigBody, ite_self]
  have hrd10 : (readCapped bigBody10 (10 <<< 20)).2 = none := by
    simp only [readCapped, readAll, limitReader, bigBody10, ite_self]
  refine ⟨by simp only [bigBody, List.length_replicate]; norm_num, ?_,
    by simp only [List.length_replicate],
    by simp only [bigBody10, List.length_replicate]; norm_num, ?_⟩
  · rw [fetch_okFirst rZero _ "waifu.im" bigBody rfl hrd]
    simp only [readCapped, readAll, limitReader, bigBody, List.take_replicate]
    norm_num [Nat.shiftLeft_eq]
  · rw [download_okFirst rZero _ bigBody10 rfl hrd10]
    simp only [readCapped, readAll, limitReader, bigBody10, List.take_replicate]
    norm_num [Nat.shiftLeft_eq]

/-- C1 (amended): `io.ReadAll(io.LimitReader(body, cap))` never fails on a
clean body: it returns success with `body.data.take cap`, i.e. at most
`cap` bytes — a body exceeding the cap is silently truncated to exactly
the cap size, and a 200 response with such a body is returned as a
successful fetch. -/
theorem read_cap_truncation (body : BodyStream) (cap : Nat)
    (h : body.terminal = none) :
    readCapped body cap = (body.data.take cap, none)
    ∧ ((readCapped body cap).1).length = min cap body.data.length
    ∧ ∀ (r : Nat → Nat) (source : String),
        (fetchWithRetry r (fun _ => AttemptResult.response 200 body) source).1
          = Except.ok (body.data.take (1 <<< 20)) := by
  have h1 : readCapped body cap = (body.data.take cap, none) := by
    simp [readCapped, readAll, limitReader, h]
  have h2 : (readCapped body (1 <<< 20)).2 = none := by
    simp [readCapped, readAll, limitReader, h]
  refine ⟨h1, by rw [h1]; simp [List.length_take], ?_⟩
  intro r source
  rw [fetch_okFirst r _ source body rfl h2]
  simp [readCapped, readAll, limitReader]

/-- C1 witness: the amended theorem applied to the oversized clean body. -/
theorem read_cap_truncation_witness :
    readCapped bigBody 1048576 = (bigBody.data.take 1048576, none) :=
  (read_cap_truncation bigBody 1048576 rfl).1

/-- C2: a fetch whose every attempt is retryable (transport failure, 429
or 5xx) performs exactly 3 attempts and returns the single wrapped
terminal error `after 3 retries: <last cause>`; a fetch whose first
response has a non-retryable non-200 status (e.g. 404) performs exactly 1
attempt and returns a terminal error. -/
theorem retry_attempt_counts :
    (∀ (r : Nat → Nat) (out : Nat → AttemptResult) (source : String),
      (∀ k, k < maxRetries → (fetchRetryErr source (out k)).isSome = true) →
      (fetchWithRetry r out source).1
          = Except.error (Err.retriesExhausted maxRetries (fetchRetryErr source (out 2)))
        ∧ requestCount (fetchWithRetry r out source).2 = 3)
    ∧ (∀ (r : Nat → Nat) (out : Nat → AttemptResult) (source : String)
        (status : Nat) (body : BodyStream),
      out 0 = AttemptResult.response status body →
      ¬ (status = 429 ∨ 500 ≤ status) → status ≠ 200 →
      (fetchWithRetry r out source).1 = Except.error (Err.apiStatus source status)
        ∧ requestCount (fetchWithRetry r out source).2 = 1) := by
  constructor
  · intro r out source h
    rw [fetch_allRetry r out source h]
    exact ⟨rfl, rfl⟩
  · intro r out source status body hout hc h200
    rw [fetch_terminalFirst r out source status body hout hc h200]
    exact ⟨rfl, rfl⟩

/-- C2 witness: an always-500 upstream is attempted 3 times; an always-404
upstream is attempted once. -/
theorem retry_attempt_counts_witness :
    ((fetchWithRetry rZero out500 "waifu.im").1
        = Except.error (Err.retriesExhausted maxRetries (fetchRetryErr "waifu.im" (out500 2)))
      ∧ requestCount (fetchWithRetry rZero out500 "waifu.im").2 = 3)
    ∧ ((fetchWithRetry rZero out404 "waifu.im").1
        = Except.error (Err.apiStatus "waifu.im" 404)
      ∧ requestCount (fetchWithRetry rZero out404 "waifu.im").2 = 1) :=
  ⟨retry_attempt_counts.1 rZero out500 "waifu.im" (by decide),
   retry_attempt_counts.2 rZero out404 "waifu.im" 404 { data := [], terminal := none }
     rfl (by decide) (by decide)⟩

/-- C3 (counterexample): the claim "the base delay is 1s before the first
retry" is false. With zero jitter and an always-500 upstream the observed
delays are 2s and 4s: the first retry waits 2·10⁹ ns, which is not in the
claimed interval [1s, 1.5s) = [base₁, base₁ + base₁/2) for base₁ = 1s. -/
theorem backoff_base_cex :
    sleepDurations (fetchWithRetry rZero out500 "waifu.im").2
        = [2 * nsPerSec, 4 * nsPerSec]
    ∧ ¬ (2 * nsPerSec < 1 * nsPerSec + 1 * nsPerSec / 2) :=
  ⟨rfl, by decide⟩

/-- C3 (amended): the delay before the k-th retry (k = 1, 2; only two
retries occur) is base + jitter with base = 2ᵏ seconds — 2s before the
first retry, 4s before the second — and jitter drawn by
`rand.Int63n(base/2)`, hence in [0, base/2). `backoffDuration(0) = 1s`
exists but is never used, because the loops sleep only for attempt ≥ 1. -/
theorem backoff_base_doubling (r : Nat → Nat) (out : Nat → AttemptResult) (source : String)
    (hr : ∀ n, 0 < n → r n < n)
    (h : ∀ k, k < maxRetries → (fetchRetryErr source (out k)).isSome = true) :
    sleepDurations (fetchWithRetry r out source).2
        = [backoffDuration r 1, backoffDuration r 2]
    ∧ ∀ k, 0 < k →
        2 ^ k * nsPerSec ≤ backoffDuration r k
        ∧ backoffDuration r k < 2 ^ k * nsPerSec + 2 ^ k * nsPerSec / 2 := by
  constructor
  · rw [fetch_allRetry r out source h]
    rfl
  · intro k hk
    have h2k : 2 ≤ 2 ^ k := by
      calc 2 = 2 ^ 1 := rfl
      _ ≤ 2 ^ k := Nat.pow_le_pow_right (by norm_num) hk
    have hpos : 0 < 2 ^ k * nsPerSec / 2 := by
      apply Nat.div_pos _ (by norm_num)
      calc 2 ≤ 2 ^ k := h2k
      _ ≤ 2 ^ k * nsPerSec := Nat.le_mul_of_pos_right _ (by norm_num [nsPerSec])
    have hj := hr (2 ^ k * nsPerSec / 2) hpos
    simp only [backoffDuration]
    exact ⟨Nat.le_add_right _ _, Nat.add_lt_add_left hj _⟩

/-- C3 witness: the amended theorem at the zero-jitter random source and
the always-500 upstream. -/
theorem backoff_base_doubling_witness :
    sleepDurations (fetchWithRetry rZero out500 "waifu.im").2
        = [backoffDuration rZero 1, backoffDuration rZero 2] :=
  (backoff_base_doubling rZero out500 "waifu.im" (fun n hn => hn) (by decide)).1

/-- C4 (counterexample): the claim "output height = round(origH × bound /
origW)" is false. At origW = 1000, origH = 799, bound = 480 the exact
ratio gives 383.52: the code truncates to 383 while the spec's rounding
gives 384. -/
theorem resize_height_cex :
    ForTerminal (some (1000, 799)) true 480 = Except.ok (480, 383)
    ∧ specRoundHeight 1000 799 480 = 384
    ∧ (383 : Nat) ≠ specRoundHeight 1000 799 480 :=
  ⟨rfl, by decide, by decide⟩

/-- C4 (amended): for a decodable input that encodes successfully, if the
original width exceeds the bound the reported dimensions are (bound,
⌊origH × bound / origW⌋) — the height is truncated, not rounded — and if
the original width is within the bound the input dimensions are reported
unchanged (never upscaled). -/
theorem resize_dims_law (origW origH maxWidth : Nat) :
    (maxWidth < origW →
      ForTerminal (some (origW, origH)) true maxWidth
        = Except.ok (maxWidth, origH * maxWidth / origW))
    ∧ (origW ≤ maxWidth →
      ForTerminal (some (origW, origH)) true maxWidth
        = Except.ok (origW, origH)) := by
  constructor
  · intro h; simp [ForTerminal, resizeDims, h]
  · intro h; simp [ForTerminal, resizeDims, Nat.not_lt.mpr h]

/-- C4 witness: a 1000×799 input is resized to 480×⌊799·480/1000⌋ and a
200×300 input passes through unchanged. -/
theorem resize_dims_law_witness :
    ForTerminal (some (1000, 799)) true 480 = Except.ok (480, 799 * 480 / 1000)
    ∧ ForTerminal (some (200, 300)) true 480 = Except.ok (200, 300) :=
  ⟨(resize_dims_law 1000 799 480).1 (by decide),
   (resize_dims_law 200 300 480).2 (by decide)⟩

/-- C5: when the download succeeds, the hash is new, the transformer fails
and the write and insert succeed, the candidate is stored (returns 1):
the file holds exactly the original downloaded bytes, and the catalog row
records the adapter-supplied dimensions and the original byte length. -/
theorem fallback_stores_original (e : Env) (s : St)
    (url src cat : String) (origW origH : Nat) (data : Bytes) (er : Err)
    (hdl : (downloadImage e.jitter (e.dl url)).1 = Except.ok data)
    (htf : e.tf data = Except.error er)
    (hnew : hasHash s.store (e.hashF data) = false)
    (hw : e.wOk (e.hashF data ++ ".webp") = true)
    (hdb : e.dbOk (e.hashF data) = true) :
    (processImage e s url src cat origW origH).1 = Except.ok 1
    ∧ lookupFS (processImage e s url src cat origW origH).2.1.files
        (e.hashF data ++ ".webp") = some data
    ∧ (processImage e s url src cat origW origH).2.1.store.rows
        = s.store.rows ++
          [{ hash := e.hashF data, source := src, sourceURL := url,
             category := cat, width := origW, height := origH,
             format := "webp", sizeBytes := data.length,
             filename := e.hashF data ++ ".webp" }] := by
  have hopt : optOf e data origW origH = (data, origW, origH) := by
    simp [optOf, htf]
  have hn : ¬ hasHash s.store (e.hashF data) = true := by simp [hnew]
  rw [processImage_dlOk e s url src cat origW origH data hdl,
    storeCandidate_new e s data url src cat origW origH hn hw hdb]
  refine ⟨rfl, ?_, ?_⟩
  · show lookupFS (writeFS s.files (e.hashF data ++ ".webp")
      (optOf e data origW origH).1) (e.hashF data ++ ".webp") = some data
    rw [hopt]
    exact lookupFS_writeFS s.files _ data
  · show s.store.rows ++ [imgOf e data url src cat origW origH] = _
    simp [imgOf, hopt]

/-- C5 witness: the fallback path on a concrete environment whose
transformer always fails stores the original bytes `[1, 2, 3]` with the
adapter dimensions 5×7. -/
theorem fallback_stores_original_witness :
    (processImage envOkFallback st0 "u" "src" "sfw" 5 7).1 = Except.ok 1
    ∧ lookupFS (processImage envOkFallback st0 "u" "src" "sfw" 5 7).2.1.files
        (envOkFallback.hashF [1, 2, 3] ++ ".webp") = some [1, 2, 3]
    ∧ (processImage envOkFallback st0 "u" "src" "sfw" 5 7).2.1.store.rows
        = st0.store.rows ++
          [{ hash := envOkFallback.hashF [1, 2, 3], source := "src", sourceURL := "u",
             category := "sfw", width := 5, height := 7,
             format := "webp", sizeBytes := ([1, 2, 3] : Bytes).length,
             filename := envOkFallback.hashF [1, 2, 3] ++ ".webp" }] :=
  fallback_stores_original envOkFallback st0 "u" "src" "sfw" 5 7 [1, 2, 3]
    Err.decodeFail rfl rfl rfl rfl rfl

/-- C6: ingestion is idempotent by content hash: an insert whose hash is
already present is a silent no-op (no error, no second row), and — when
the filesystem and database oracles succeed — running a cycle twice over
the same deterministic upstream responses yields new-count 0 on the
second run and leaves the state of the first run unchanged. -/
theorem ingest_idempotent (re : RunEnv) (s : St)
    (hw : ∀ f, re.env.wOk f = true) (hdb : ∀ h, re.env.dbOk h = true) :
    (∀ (dbOk : String → Bool) (st : Store) (img : Image),
        hasHash st img.hash = true → catalogInsert dbOk st img = (Except.ok (), st))
    ∧ (run re (run re s).2.1).1 = Except.ok 0
    ∧ (run re (run re s).2.1).2.1 = (run re s).2.1 := by
  refine ⟨fun dbOk st img hh => catalogInsert_dup dbOk st img hh, ?_⟩
  simp only [run]
  set t1 := (ingestWaifuIm re.env (re.imFetch "sfw") re.imParse "sfw" s).2.1 with ht1
  set t2 := (ingestWaifuIm re.env (re.imFetch "nsfw") re.imParse "nsfw" t1).2.1 with ht2
  set t3 := (ingestWaifuPics re.env (re.picsFetch "sfw") re.picsParse "sfw" t2).2.1 with ht3
  set t4 := (ingestWaifuPics re.env (re.picsFetch "nsfw") re.picsParse "nsfw" t3).2.1 with ht4
  have kB : keepsHashes t1 t2 := by
    rw [ht2]; exact ingestWaifuIm_keeps re.env (re.imFetch "nsfw") re.imParse "nsfw" t1
  have kC : keepsHashes t2 t3 := by
    rw [ht3]; exact ingestWaifuPics_keeps re.env (re.picsFetch "sfw") re.picsParse "sfw" t2
  have kD : keepsHashes t3 t4 := by
    rw [ht4]; exact ingestWaifuPics_keeps re.env (re.picsFetch "nsfw") re.picsParse "nsfw" t3
  have hk1 : keepsHashes t1 t4 := keepsHashes_trans kB (keepsHashes_trans kC kD)
  have hk2 : keepsHashes t2 t4 := keepsHashes_trans kC kD
  have n1 := ingestWaifuIm_idem re.env (re.imFetch "sfw") re.imParse "sfw" s t4
    hw hdb (by rw [← ht1]; exact hk1)
  have n2 := ingestWaifuIm_idem re.env (re.imFetch "nsfw") re.imParse "nsfw" t1 t4
    hw hdb (by rw [← ht2]; exact hk2)
  have n3 := ingestWaifuPics_idem re.env (re.picsFetch "sfw") re.picsParse "sfw" t2 t4
    hw hdb (by rw [← ht3]; exact kD)
  have n4 := ingestWaifuPics_idem re.env (re.picsFetch "nsfw") re.picsParse "nsfw" t3 t4
    hw hdb (by rw [← ht4]; exact keepsHashes_refl t4)
  constructor
  · rw [n1.1, n2.1, n3.1, n1.2, n2.2, n3.2, n4.2]
  · rw [n1.1, n2.1, n3.1, n4.1]

/-- C6 witness: the idempotence conclusion at a concrete cycle environment
(one waifu.im candidate, waifu.pics failing with 500). -/
theorem ingest_idempotent_witness :
    (run re0 (run re0 st0).2.1).1 = Except.ok 0
    ∧ (run re0 (run re0 st0).2.1).2.1 = (run re0 st0).2.1 :=
  (ingest_idempotent re0 st0 (fun _ => rfl) (fun _ => rfl)).2

/-- C7: processing one candidate preserves the invariant "every file in
the image directory has a catalog row with its filename", for every
outcome of the download, transformer, write and insert oracles — in
particular a failed insert rolls the just-written file back. -/
theorem no_orphan_files (e : Env) (s : St) (url src cat : String) (w h : Nat)
    (hinv : filesHaveRows s) :
    filesHaveRows (processImage e s url src cat w h).2.1 := by
  cases hdl : (downloadImage e.jitter (e.dl url)).1 with
  | error er => rw [processImage_dlErr e s url src cat w h er hdl]; exact hinv
  | ok data =>
      rw [processImage_dlOk e s url src cat w h data hdl]
      by_cases h1 : hasHash s.store (e.hashF data) = true
      · rw [storeCandidate_dup e s data url src cat w h h1]; exact hinv
      · by_cases h2 : e.wOk (e.hashF data ++ ".webp") = true
        · by_cases h3 : e.dbOk (e.hashF data) = true
          · rw [storeCandidate_new e s data url src cat w h h1 h2 h3]
            intro p hp
            rcases mem_writeFS hp with hp | hp
            · refine ⟨imgOf e data url src cat w h, ?_, ?_⟩
              · simp
              · subst hp; simp [imgOf]
            · rcases hinv p hp with ⟨img, himg, hname⟩
              exact ⟨img, by simp [himg], hname⟩
          · rw [storeCandidate_insfail e s data url src cat w h h1 h2 h3]
            intro p hp
            have h4 := mem_removeFS hp
            rcases mem_writeFS h4.1 with hp2 | hp2
            · exact absurd (by rw [hp2]) h4.2
            · exact hinv p hp2
        · rw [storeCandidate_wfail e s data url src cat w h h1 h2]; exact hinv

/-- C7 witness: the invariant holds after processing a candidate from the
empty state. -/
theorem no_orphan_files_witness :
    filesHaveRows (processImage envOkFallback st0 "u" "src" "sfw" 5 7).2.1 :=
  no_orphan_files envOkFallback st0 "u" "src" "sfw" 5 7
    (by intro p hp; simp [st0] at hp)

/-- C8: one cycle always returns `ok` with the sum of the four per-source
new-counts (an errored source contributing 0 via `newCount`), and the
trace always contains exactly the four adapter invocations
(waifu.im sfw, waifu.im nsfw, waifu.pics sfw, waifu.pics nsfw) in order,
whatever the adapters and candidates do — no failure aborts the cycle. -/
theorem cycle_never_aborts (re : RunEnv) (s : St) :
    (run re s).1 = Except.ok
      (newCount (ingestWaifuIm re.env (re.imFetch "sfw") re.imParse "sfw" s).1
       + newCount (ingestWaifuIm re.env (re.imFetch "nsfw") re.imParse "nsfw"
           (ingestWaifuIm re.env (re.imFetch "sfw") re.imParse "sfw" s).2.1).1
       + newCount (ingestWaifuPics re.env (re.picsFetch "sfw") re.picsParse "sfw"
           (ingestWaifuIm re.env (re.imFetch "nsfw") re.imParse "nsfw"
             (ingestWaifuIm re.env (re.imFetch "sfw") re.imParse "sfw" s).2.1).2.1).1
       + newCount (ingestWaifuPics re.env (re.picsFetch "nsfw") re.picsParse "nsfw"
           (ingestWaifuPics re.env (re.picsFetch "sfw") re.picsParse "sfw"
             (ingestWaifuIm re.env (re.imFetch "nsfw") re.imParse "nsfw"
               (ingestWaifuIm re.env (re.imFetch "sfw") re.imParse "sfw" s).2.1).2.1).2.1).1)
    ∧ adapterCalls (run re s).2.2
        = [("waifu.im", "sfw"), ("waifu.im", "nsfw"),
           ("waifu.pics", "sfw"), ("waifu.pics", "nsfw")] := by
  constructor
  · rfl
  · show adapterCalls
      ((ingestWaifuIm re.env (re.imFetch "sfw") re.imParse "sfw" s).2.2
        ++ (ingestWaifuIm re.env (re.imFetch "nsfw") re.imParse "nsfw" _).2.2
        ++ (ingestWaifuPics re.env (re.picsFetch "sfw") re.picsParse "sfw" _).2.2
        ++ (ingestWaifuPics re.env (re.picsFetch "nsfw") re.picsParse "nsfw" _).2.2) = _
    rw [adapterCalls_append, adapterCalls_append, adapterCalls_append,
      ingestWaifuIm_adapter, ingestWaifuIm_adapter,
      ingestWaifuPics_adapter, ingestWaifuPics_adapter]
    rfl

/-- C9 (counterexample): the claim "a fresh token is acquired before each
retry on the image download path too" is false. With every download
attempt answering 500, one candidate issues 3 requests but the download
path acquires exactly 1 token (the single `downloadLimiter.Wait` in
`processImage`); 3 tokens would be needed to cover every attempt. -/
theorem download_token_reacquire_cex :
    requestCount (processImage envAll500 st0 "u" "waifu.pics" "sfw" 0 0).2.2 = 3
    ∧ tokenWaitCount (processImage envAll500 st0 "u" "waifu.pics" "sfw" 0 0).2.2 = 1
    ∧ ¬ 3 ≤ tokenWaitCount (processImage envAll500 st0 "u" "waifu.pics" "sfw" 0 0).2.2 :=
  ⟨rfl, rfl, by decide⟩

/-- C9 (amended): on the API fetch path a fresh token is re-acquired
between the backoff sleep and the request of every retry (the trace is
request · sleep · tokenWait · request · sleep · tokenWait · request);
on the image download path no token is ever acquired inside the retry
loop — the token is acquired exactly once per candidate, before the
first attempt. -/
theorem token_acquisition_paths (r : Nat → Nat) (out : Nat → AttemptResult) (source : String)
    (h : ∀ k, k < maxRetries → (fetchRetryErr source (out k)).isSome = true) :
    (fetchWithRetry r out source).2
      = [Ev.request, Ev.sleep (backoffDuration r 1), Ev.tokenWait, Ev.request,
         Ev.sleep (backoffDuration r 2), Ev.tokenWait, Ev.request]
    ∧ (∀ (r2 : Nat → Nat) (out2 : Nat → AttemptResult),
        tokenWaitCount (downloadImage r2 out2).2 = 0)
    ∧ (∀ (e : Env) (s : St) (url src cat : String) (w hh : Nat),
        tokenWaitCount (processImage e s url src cat w hh).2.2 = 1) :=
  ⟨by rw [fetch_allRetry r out source h], downloadImage_no_tokenWait,
    processImage_one_tokenWait⟩

/-- C9 witness: the amended trace shape at the always-500 upstream. -/
theorem token_acquisition_paths_witness :
    (fetchWithRetry rZero out500 "waifu.im").2
      = [Ev.request, Ev.sleep (backoffDuration rZero 1), Ev.tokenWait, Ev.request,
         Ev.sleep (backoffDuration rZero 2), Ev.tokenWait, Ev.request] :=
  (token_acquisition_paths rZero out500 "waifu.im" (by decide)).1

/-- C10: every row `processImage` ever stores — including rows stored via
the transformer-failure fallback, whose bytes are the untransformed
original — has format tag "webp" and filename `hash ++ ".webp"`; the tag
and extension are never derived from the byte content. -/
theorem stored_format_webp (e : Env) (s : St) (url src cat : String) (w h : Nat)
    (hP : ∀ img ∈ s.store.rows, WebpRow img) :
    ∀ img ∈ (processImage e s url src cat w h).2.1.store.rows, WebpRow img := by
  cases hdl : (downloadImage e.jitter (e.dl url)).1 with
  | error er => rw [processImage_dlErr e s url src cat w h er hdl]; exact hP
  | ok data =>
      rw [processImage_dlOk e s url src cat w h data hdl]
      by_cases h1 : hasHash s.store (e.hashF data) = true
      · rw [storeCandidate_dup e s data url src cat w h h1]; exact hP
      · by_cases h2 : e.wOk (e.hashF data ++ ".webp") = true
        · by_cases h3 : e.dbOk (e.hashF data) = true
          · rw [storeCandidate_new e s data url src cat w h h1 h2 h3]
            intro img himg
            rcases List.mem_append.mp himg with himg | himg
            · exact hP img himg
            · have himg2 : img = imgOf e data url src cat w h := by simpa using himg
              subst himg2
              exact ⟨rfl, rfl⟩
          · rw [storeCandidate_insfail e s data url src cat w h h1 h2 h3]; exact hP
        · rw [storeCandidate_wfail e s data url src cat w h h1 h2]; exact hP

/-- C10 witness: the row stored via the fallback path from the empty state
has the constant webp tag and the hash-derived filename. -/
theorem stored_format_webp_witness :
    WebpRow (imgOf envOkFallback [1, 2, 3] "u" "src" "sfw" 5 7) :=
  stored_format_webp envOkFallback st0 "u" "src" "sfw" 5 7
    (by intro img hi; simp [st0] at hi)
    (imgOf envOkFallback [1, 2, 3] "u" "src" "sfw" 5 7)
    (by decide)

end WaifuMirror
